import Mathlib

/-!
Verification of the ZKnon coupon engine against its specification.

This file gives a shallow embedding of the repository's source: the JSON
file store `db.js` (coupon and event collections with find/filter/update
operations) and the express route handlers of `server.js` (Create, Deposit,
WithdrawOnchain, Pay, History, ListForOwner).

Modelling conventions:
- SOL amounts, which are JavaScript numbers in the source, are modelled as
  exact rationals (the spec speaks of positive/non-negative decimals);
  `parseAmountSol` keeps the source's finiteness-and-positivity check, where
  every rational counts as finite.
- Optional / possibly-absent JSON string fields are `Option String`;
  JavaScript truthiness of such a field (absent, `null`, or `""` are falsy)
  is `jsTruthy`; the coercion `String(x || "").trim()` is `strField`.
- The two collections live in a `St` record; each store operation that the
  source implements by load / mutate / save-whole-file becomes a pure
  function on the lists.
- The external Solana transfer performed by the withdraw-onchain route
  (engine keypair + connection + `sendTransaction` + `confirmTransaction`)
  is an opaque capability passed in as `Except String String`: `.ok sig` is
  a confirmed signature, `.error msg` is any failure raised inside the
  route's try-block.
-/

namespace ZKnon

/-- The default pool address constant of `server.js` (informational only). -/
def poolAddress : String := "8hGDXBJqpCZvWaDcbvXykRSb1bKbbJ5Ji4c85ubYvkaA"

/-- The four event kinds written by the routes (`type` field of an event). -/
inductive EvType where
  | create
  | deposit
  | withdraw
  | pay
deriving DecidableEq, Repr

/-- A coupon record as stored in `coupons.json`. -/
structure Coupon where
  id : String
  label : String
  owner_wallet : String
  initial_amount_sol : ℚ
  remaining_amount_sol : ℚ
  expires_at : Option String
  pool_address : String
  created_at : String
deriving DecidableEq, Repr

/-- An event record as stored in `events.json`. -/
structure Event where
  coupon_id : String
  owner_wallet : String
  type : EvType
  amount_sol : ℚ
  to_address : String
  note : Option String
  tx_sig : Option String
  created_at : String
deriving DecidableEq, Repr

/-- The two persisted collections. -/
structure St where
  coupons : List Coupon
  events : List Event
deriving DecidableEq, Repr

/-- The empty store (fresh data directory). -/
def emptySt : St := { coupons := [], events := [] }

/-- JavaScript truthiness of a possibly-absent string field: absent/null and
the empty string are falsy. -/
def jsTruthy : Option String → Bool
  | none => false
  | some s => s != ""

/-- JavaScript `String.prototype.trim`: strip leading and trailing
whitespace (written structurally over the character list so that it
evaluates by kernel reduction). -/
def jsTrim (s : String) : String :=
  ⟨((s.data.dropWhile Char.isWhitespace).reverse.dropWhile Char.isWhitespace).reverse⟩

/-- The source's input coercion `String(x || "").trim()`. -/
def strField (x : Option String) : String := jsTrim (x.getD "")

/-- The source's `x || null` on an optional string field: an absent or empty
string becomes null. -/
def jsOrNone : Option String → Option String
  | none => none
  | some s => if s = "" then none else some s

/-- The source's `Number(x || 0)` applied to a numeric field: a falsy number
(only 0 among rationals) is replaced by 0, so this is the identity. -/
def jsOr0 (q : ℚ) : ℚ := if q = 0 then 0 else q

/-- The source's `parseAmountSol`: rejects non-finite or non-positive
amounts (every rational is finite). -/
def parseAmountSol (v : ℚ) : Option ℚ := if v ≤ 0 then none else some v

/-! ### Store operations (`db.js`) -/

/-- Store operation `getCouponsByOwner`: filter the coupon collection by owner wallet. -/
def getCouponsByOwner (ownerWallet : String) (coupons : List Coupon) : List Coupon :=
  coupons.filter (fun c => c.owner_wallet == ownerWallet)

/-- Store operation `getCouponById(id, ownerWallet)`: first coupon whose id matches and,
when `ownerWallet` is truthy, whose owner also matches (the source's
`c.id === id && (!ownerWallet || c.owner_wallet === ownerWallet)`). -/
def getCouponById (id : String) (ownerWallet : Option String)
    (coupons : List Coupon) : Option Coupon :=
  coupons.find? (fun c =>
    c.id == id && (!jsTruthy ownerWallet || c.owner_wallet == ownerWallet.getD ""))

/-- Store operation `createCoupon`: push a coupon record onto the collection. -/
def createCoupon (coupon : Coupon) (coupons : List Coupon) : List Coupon :=
  coupons ++ [coupon]

/-- Store operation `updateCoupon(id, ownerWallet, mutator)`: mutate the first coupon
matching id and owner in place and persist; return the updated record
(`none` when no coupon matches, in which case the collection is unchanged). -/
def updateCoupon (id ownerWallet : String) (mutator : Coupon → Coupon) :
    List Coupon → Option Coupon × List Coupon
  | [] => (none, [])
  | c :: rest =>
    if c.id == id && c.owner_wallet == ownerWallet then
      (some (mutator c), mutator c :: rest)
    else
      let r := updateCoupon id ownerWallet mutator rest
      (r.1, c :: r.2)

/-- Store operation `addEvent`: append an event record to the collection. -/
def addEvent (event : Event) (events : List Event) : List Event :=
  events ++ [event]

/-- Store operation `getEventsForCoupon(couponId, ownerWallet)`: all events matching both
the coupon id and the owner wallet. -/
def getEventsForCoupon (couponId ownerWallet : String)
    (events : List Event) : List Event :=
  events.filter (fun e => e.coupon_id == couponId && e.owner_wallet == ownerWallet)

/-! ### Route responses

One constructor per distinguishable outcome of the routes of `server.js`:
`badRequest` is a 400 from input validation, `insufficientBalance` the 400
with body `{"error": "insufficient coupon balance"}`, `notFound` a 404, and
`externalTransferFailed` the 500 `{"error": "on-chain withdraw failed"}`
raised when the on-chain transfer of the withdraw route fails. -/

inductive Resp where
  | created (coupon : Coupon)
  | okEvent (coupon : Option Coupon) (event : Event)
  | okWithdraw (coupon : Option Coupon) (event : Event) (txSig : String)
  | okHistory (coupon : Coupon) (events : List Event)
  | okList (wallet : String) (coupons : List (Coupon × List Event))
  | badRequest (msg : String)
  | insufficientBalance
  | notFound (msg : String)
  | externalTransferFailed (details : String)
deriving DecidableEq, Repr

/-! ### Route handlers (`server.js`) -/

/-- Route `POST /coupons`: create a coupon. `newId` is the value produced by
`generateCouponId()` and `ts` the value of `nowIso()`. -/
def createHandler (st : St) (wallet label : Option String) (amountSol : ℚ)
    (expiry : Option String) (newId ts : String) : Resp × St :=
  let ownerWallet := strField wallet
  let couponLabel := strField label
  if ownerWallet = "" then (.badRequest "wallet is required", st)
  else if couponLabel = "" then (.badRequest "label is required", st)
  else
    match parseAmountSol amountSol with
    | none => (.badRequest "amount_sol must be a positive number", st)
    | some amount =>
      let coupon : Coupon :=
        { id := newId, label := couponLabel, owner_wallet := ownerWallet,
          initial_amount_sol := amount, remaining_amount_sol := amount,
          expires_at := jsOrNone expiry, pool_address := poolAddress,
          created_at := ts }
      let ev : Event :=
        { coupon_id := newId, owner_wallet := ownerWallet, type := .create,
          amount_sol := amount, to_address := ownerWallet, note := none,
          tx_sig := none, created_at := ts }
      (.created coupon,
        { coupons := createCoupon coupon st.coupons,
          events := addEvent ev st.events })

/-- Route `POST /coupons/:id/deposit`: record an externally performed deposit. -/
def depositHandler (st : St) (id : String) (wallet : Option String)
    (amountSol : ℚ) (txSig : Option String) (ts : String) : Resp × St :=
  let ownerWallet := strField wallet
  if ownerWallet = "" then (.badRequest "wallet is required", st)
  else
    match parseAmountSol amountSol with
    | none => (.badRequest "amount_sol must be a positive number", st)
    | some amount =>
      match getCouponById id (some ownerWallet) st.coupons with
      | none => (.notFound "coupon not found for this wallet", st)
      | some _ =>
        let r := updateCoupon id ownerWallet
          (fun c => { c with
            remaining_amount_sol := jsOr0 c.remaining_amount_sol + amount })
          st.coupons
        let ev : Event :=
          { coupon_id := id, owner_wallet := ownerWallet, type := .deposit,
            amount_sol := amount, to_address := ownerWallet, note := none,
            tx_sig := jsOrNone txSig, created_at := ts }
        (.okEvent r.1 ev, { coupons := r.2, events := addEvent ev st.events })

/-- Route `POST /coupons/:id/withdraw-onchain`: balance-checked withdrawal whose
on-chain transfer is the opaque `xfer` capability; the local update and the
withdraw event happen only after `.ok sig`, and any failure inside the
try-block leaves the store untouched. -/
def withdrawHandler (st : St) (id : String) (wallet recipient : Option String)
    (amountSol : ℚ) (xfer : Except String String) (ts : String) : Resp × St :=
  let ownerWallet := strField wallet
  let toAddress := strField recipient
  if ownerWallet = "" then (.badRequest "wallet is required", st)
  else if toAddress = "" then (.badRequest "recipient is required", st)
  else
    match parseAmountSol amountSol with
    | none => (.badRequest "amount_sol must be a positive number", st)
    | some amount =>
      match getCouponById id (some ownerWallet) st.coupons with
      | none => (.notFound "coupon not found for this wallet", st)
      | some coupon =>
        let currentRemaining := jsOr0 coupon.remaining_amount_sol
        if amount > currentRemaining then (.insufficientBalance, st)
        else
          match xfer with
          | .error e => (.externalTransferFailed e, st)
          | .ok sig =>
            let r := updateCoupon id ownerWallet
              (fun c => { c with
                remaining_amount_sol := currentRemaining - amount })
              st.coupons
            let ev : Event :=
              { coupon_id := id, owner_wallet := ownerWallet,
                type := .withdraw, amount_sol := amount,
                to_address := toAddress, note := none, tx_sig := some sig,
                created_at := ts }
            (.okWithdraw r.1 ev sig,
              { coupons := r.2, events := addEvent ev st.events })

/-- Route `POST /pay`: off-chain payment, purely a balance debit plus a pay
event; no external transfer capability is involved. -/
def payHandler (st : St) (wallet couponIdRaw merchant note : Option String)
    (amountSol : ℚ) (ts : String) : Resp × St :=
  let ownerWallet := strField wallet
  let couponId := strField couponIdRaw
  let merchantWallet := strField merchant
  if ownerWallet = "" then (.badRequest "wallet is required", st)
  else if couponId = "" then (.badRequest "coupon_id is required", st)
  else if merchantWallet = "" then (.badRequest "merchant is required", st)
  else
    match parseAmountSol amountSol with
    | none => (.badRequest "amount_sol must be a positive number", st)
    | some amount =>
      match getCouponById couponId (some ownerWallet) st.coupons with
      | none => (.notFound "coupon not found for this wallet", st)
      | some coupon =>
        let currentRemaining := jsOr0 coupon.remaining_amount_sol
        if amount > currentRemaining then (.insufficientBalance, st)
        else
          let r := updateCoupon couponId ownerWallet
            (fun c => { c with
              remaining_amount_sol := currentRemaining - amount })
            st.coupons
          let ev : Event :=
            { coupon_id := couponId, owner_wallet := ownerWallet,
              type := .pay, amount_sol := amount,
              to_address := merchantWallet, note := jsOrNone note,
              tx_sig := none, created_at := ts }
          (.okEvent r.1 ev, { coupons := r.2, events := addEvent ev st.events })

/-- Route `GET /coupons/:id/history`: the coupon plus its owner-scoped events. -/
def historyHandler (st : St) (id : String) (wallet : Option String) : Resp :=
  let w := strField wallet
  if w = "" then .badRequest "wallet query param is required"
  else
    match getCouponById id (some w) st.coupons with
    | none => .notFound "coupon not found for this wallet"
    | some c => .okHistory c (getEventsForCoupon id w st.events)

/-- Route `GET /coupons`: every coupon of the wallet, annotated with its events. -/
def listHandler (st : St) (wallet : Option String) : Resp :=
  let w := strField wallet
  if w = "" then .badRequest "wallet query param is required"
  else .okList w ((getCouponsByOwner w st.coupons).map
    (fun c => (c, getEventsForCoupon c.id c.owner_wallet st.events)))

/-! ### Operation sequences -/

instance {ε α : Type} [DecidableEq ε] [DecidableEq α] : DecidableEq (Except ε α)
  | .ok a, .ok b => decidable_of_iff (a = b) (by simp)
  | .error a, .error b => decidable_of_iff (a = b) (by simp)
  | .ok _, .error _ => isFalse (fun h => Except.noConfusion h)
  | .error _, .ok _ => isFalse (fun h => Except.noConfusion h)

/-- One invocation of a mutating route, with the nondeterministic inputs
(generated id, timestamps, transfer outcome) made explicit. -/
inductive Op where
  | create (wallet label : Option String) (amountSol : ℚ)
      (expiry : Option String) (newId ts : String)
  | deposit (id : String) (wallet : Option String) (amountSol : ℚ)
      (txSig : Option String) (ts : String)
  | withdrawOnchain (id : String) (wallet recipient : Option String)
      (amountSol : ℚ) (xfer : Except String String) (ts : String)
  | pay (wallet couponId merchant note : Option String) (amountSol : ℚ)
      (ts : String)
deriving DecidableEq, Repr

/-- Dispatch one operation to its route handler. -/
def step (st : St) : Op → Resp × St
  | .create w l a exp newId ts => createHandler st w l a exp newId ts
  | .deposit id w a tx ts => depositHandler st id w a tx ts
  | .withdrawOnchain id w r a x ts => withdrawHandler st id w r a x ts
  | .pay w cid m n a ts => payHandler st w cid m n a ts

/-- Run a sequence of operations, keeping only the store. -/
def run : St → List Op → St
  | st, [] => st
  | st, op :: ops => run (step st op).2 ops

/-- The id supplied to a create operation does not collide with any stored
coupon id (the spec assumes `generateCouponId` is collision-free). -/
def freshOkB (st : St) : Op → Bool
  | .create _ _ _ _ newId _ => st.coupons.all (fun c => !(c.id == newId))
  | _ => true

/-- Every create along the run uses a fresh id. -/
def freshRunB : St → List Op → Bool
  | _, [] => true
  | st, op :: ops => freshOkB st op && freshRunB (step st op).2 ops

/-! ### Derived ledger quantities -/

/-- The events belonging to a coupon: those matching its id and owner
(exactly the pair `History` filters on). -/
def couponEvents (events : List Event) (c : Coupon) : List Event :=
  getEventsForCoupon c.id c.owner_wallet events

/-- Sum of `amount_sol` over the events of one kind. -/
def sumOfType (t : EvType) (events : List Event) : ℚ :=
  ((events.filter (fun e => e.type == t)).map (fun e => e.amount_sol)).sum

/-- The sign an event kind contributes to the signed event total. -/
def evDelta (t : EvType) (a : ℚ) : ℚ :=
  match t with
  | .create => a
  | .deposit => a
  | .withdraw => -a
  | .pay => -a

/-- Signed sum of all events' amounts: create and deposit add, withdraw
and pay subtract. -/
def signedTotal (events : List Event) : ℚ :=
  (events.map (fun e => evDelta e.type e.amount_sol)).sum

/-- The balance bookkeeping equation of spec §8: remaining equals initial
plus deposits minus withdrawals minus payments. -/
def balanceEq (events : List Event) (c : Coupon) : Prop :=
  c.remaining_amount_sol =
    c.initial_amount_sol
    + sumOfType .deposit (couponEvents events c)
    - sumOfType .withdraw (couponEvents events c)
    - sumOfType .pay (couponEvents events c)

/-- The ledger invariant maintained across operations: stored coupon ids
are distinct, every event belongs to a stored coupon, and every coupon has
a non-negative balance, create events summing to its initial amount, and
the balance bookkeeping equation. -/
def Inv (st : St) : Prop :=
  (st.coupons.map Coupon.id).Nodup ∧
  (∀ e ∈ st.events, ∃ c ∈ st.coupons,
    c.id = e.coupon_id ∧ c.owner_wallet = e.owner_wallet) ∧
  (∀ c ∈ st.coupons,
    0 ≤ c.remaining_amount_sol ∧
    sumOfType .create (couponEvents st.events c) = c.initial_amount_sol ∧
    balanceEq st.events c)

/-- The non-negativity invariant alone (it needs no assumption on id
generation). -/
def NonnegInv (st : St) : Prop :=
  ∀ c ∈ st.coupons, 0 ≤ c.remaining_amount_sol

/-! ### Concrete fixtures used by the witnesses -/

def wCoupon : Coupon :=
  { id := "CPN-0001", label := "Lunch", owner_wallet := "W1",
    initial_amount_sol := 2, remaining_amount_sol := 2,
    expires_at := none, pool_address := poolAddress, created_at := "t0" }

def wEvent0 : Event :=
  { coupon_id := "CPN-0001", owner_wallet := "W1", type := .create,
    amount_sol := 2, to_address := "W1", note := none, tx_sig := none,
    created_at := "t0" }

def wSt : St := { coupons := [wCoupon], events := [wEvent0] }

/-- A concrete operation sequence exercising all four mutating routes. -/
def runOps : List Op :=
  [.create (some "W1") (some "Lunch") 2 none "CPN-0004" "t0",
   .deposit "CPN-0004" (some "W1") 1 (some "DEPSIG") "t1",
   .pay (some "W1") (some "CPN-0004") (some "M1") (some "coffee") 1 "t2",
   .withdrawOnchain "CPN-0004" (some "W1") (some "R1") 1 (.ok "WSIG") "t3"]

/-- The coupon stored after `runOps`: 2 created, 1 deposited, 1 paid,
1 withdrawn, so 1 remains. -/
def runCoupon : Coupon :=
  { id := "CPN-0004", label := "Lunch", owner_wallet := "W1",
    initial_amount_sol := 2, remaining_amount_sol := 1,
    expires_at := none, pool_address := poolAddress, created_at := "t0" }

/-- A single create operation, used to test the signed-sum claim. -/
def c3Ops : List Op :=
  [.create (some "W1") (some "Lunch") 2 none "CPN-0003" "t0"]

def c3St : St := run emptySt c3Ops

def c3Coupon : Coupon :=
  { id := "CPN-0003", label := "Lunch", owner_wallet := "W1",
    initial_amount_sol := 2, remaining_amount_sol := 2,
    expires_at := none, pool_address := poolAddress, created_at := "t0" }

/-- A store holding coupons of two different owners, with their create
events, used to exercise the owner-scoping of the read operations. -/
def c9CouponA : Coupon :=
  { id := "CPN-A1", label := "Lunch", owner_wallet := "W1",
    initial_amount_sol := 2, remaining_amount_sol := 2,
    expires_at := none, pool_address := poolAddress, created_at := "t0" }

def c9CouponB : Coupon :=
  { id := "CPN-B1", label := "Dinner", owner_wallet := "W2",
    initial_amount_sol := 3, remaining_amount_sol := 3,
    expires_at := none, pool_address := poolAddress, created_at := "t1" }

def c9EventA : Event :=
  { coupon_id := "CPN-A1", owner_wallet := "W1", type := .create,
    amount_sol := 2, to_address := "W1", note := none, tx_sig := none,
    created_at := "t0" }

def c9EventB : Event :=
  { coupon_id := "CPN-B1", owner_wallet := "W2", type := .create,
    amount_sol := 3, to_address := "W2", note := none, tx_sig := none,
    created_at := "t1" }

def c9St : St :=
  { coupons := [c9CouponA, c9CouponB], events := [c9EventA, c9EventB] }

/-! ### Elementary facts about the JavaScript coercions -/

theorem jsOr0_eq (q : ℚ) : jsOr0 q = q := by
  by_cases h : q = 0 <;> simp [jsOr0, h]

theorem parseAmountSol_some {v a : ℚ} (h : parseAmountSol v = some a) :
    0 < a ∧ a = v := by
  unfold parseAmountSol at h
  by_cases hv : v ≤ 0
  · simp [hv] at h
  · simp [hv] at h
    exact ⟨lt_of_not_le (h ▸ hv), h.symm⟩

/-- With a non-empty owner, `getCouponById` filters on exactly the
id-and-owner predicate that `updateCoupon` uses. -/
theorem getCouponById_some_owner (id o : String) (ho : o ≠ "")
    (cs : List Coupon) :
    getCouponById id (some o) cs =
      cs.find? (fun c => c.id == id && c.owner_wallet == o) := by
  have h1 : (o == "") = false := beq_eq_false_iff_ne.mpr ho
  have hp : (fun c : Coupon =>
      c.id == id && (!jsTruthy (some o) || c.owner_wallet == (some o).getD ""))
      = fun c => c.id == id && c.owner_wallet == o := by
    funext c
    simp [jsTruthy, bne, h1]
  unfold getCouponById
  rw [hp]

/-! ### Facts about `updateCoupon` -/

theorem updateCoupon_fst (id o : String) (f : Coupon → Coupon)
    (cs : List Coupon) :
    (updateCoupon id o f cs).1 =
      (cs.find? (fun c => c.id == id && c.owner_wallet == o)).map f := by
  induction cs with
  | nil => rfl
  | cons c rest ih =>
    cases h : (c.id == id && c.owner_wallet == o) <;>
      simp [updateCoupon, List.find?_cons, h, ih]

theorem updateCoupon_map_id (id o : String) (f : Coupon → Coupon)
    (hid : ∀ c, (f c).id = c.id) (cs : List Coupon) :
    ((updateCoupon id o f cs).2).map Coupon.id = cs.map Coupon.id := by
  induction cs with
  | nil => rfl
  | cons c rest ih =>
    cases h : (c.id == id && c.owner_wallet == o) <;>
      simp [updateCoupon, h, hid, ih]

theorem mem_updateCoupon_weak (id o : String) (f : Coupon → Coupon)
    {cs : List Coupon} {x : Coupon}
    (hx : x ∈ (updateCoupon id o f cs).2) :
    x ∈ cs ∨ ∃ c0, cs.find? (fun c => c.id == id && c.owner_wallet == o)
      = some c0 ∧ x = f c0 := by
  induction cs with
  | nil => simp [updateCoupon] at hx
  | cons c rest ih =>
    cases h : (c.id == id && c.owner_wallet == o)
    · simp only [updateCoupon, h, Bool.false_eq_true, if_false] at hx
      rcases List.mem_cons.mp hx with h1 | h1
      · exact Or.inl (h1 ▸ List.mem_cons_self _ _)
      · rcases ih h1 with h2 | ⟨c0, hc0, hxc0⟩
        · exact Or.inl (List.mem_cons_of_mem _ h2)
        · refine Or.inr ⟨c0, ?_, hxc0⟩
          simp [List.find?_cons, h, hc0]
    · simp only [updateCoupon, h, if_true] at hx
      rcases List.mem_cons.mp hx with h1 | h1
      · exact Or.inr ⟨c, by simp [List.find?_cons, h], h1⟩
      · exact Or.inl (List.mem_cons_of_mem _ h1)

theorem mem_updateCoupon_of_nodup (id o : String) (f : Coupon → Coupon)
    {cs : List Coupon} {c0 x : Coupon}
    (hnd : (cs.map Coupon.id).Nodup)
    (hfind : cs.find? (fun c => c.id == id && c.owner_wallet == o) = some c0)
    (hx : x ∈ (updateCoupon id o f cs).2) :
    x = f c0 ∨ (x ∈ cs ∧ ¬(x.id = id ∧ x.owner_wallet = o)) := by
  induction cs with
  | nil => simp [updateCoupon] at hx
  | cons c rest ih =>
    simp only [List.map_cons, List.nodup_cons] at hnd
    cases h : (c.id == id && c.owner_wallet == o)
    · simp only [List.find?_cons, h] at hfind
      simp only [updateCoupon, h, Bool.false_eq_true, if_false] at hx
      rcases List.mem_cons.mp hx with h1 | h1
      · refine Or.inr ⟨h1 ▸ List.mem_cons_self _ _, ?_⟩
        rintro ⟨hxa, hxo⟩
        subst h1
        simp [hxa, hxo] at h
      · rcases ih hnd.2 hfind h1 with h2 | ⟨h2, h3⟩
        · exact Or.inl h2
        · exact Or.inr ⟨List.mem_cons_of_mem _ h2, h3⟩
    · simp only [List.find?_cons, h] at hfind
      have hc0 : c = c0 := by injection hfind
      simp only [updateCoupon, h, if_true] at hx
      rcases List.mem_cons.mp hx with h1 | h1
      · exact Or.inl (hc0 ▸ h1)
      · refine Or.inr ⟨List.mem_cons_of_mem _ h1, ?_⟩
        rintro ⟨hxa, -⟩
        have hcid : c.id = id := by
          have := (Bool.and_eq_true _ _).mp h
          exact beq_iff_eq.mp this.1
        have hmem : x.id ∈ List.map Coupon.id rest :=
          List.mem_map_of_mem Coupon.id h1
        rw [hxa, ← hcid] at hmem
        exact hnd.1 hmem

theorem updateCoupon_key_surj (id o : String) (f : Coupon → Coupon)
    (hid : ∀ c, (f c).id = c.id)
    (how : ∀ c, (f c).owner_wallet = c.owner_wallet)
    {cs : List Coupon} {c : Coupon} (hc : c ∈ cs) :
    ∃ c2 ∈ (updateCoupon id o f cs).2,
      c2.id = c.id ∧ c2.owner_wallet = c.owner_wallet := by
  induction cs with
  | nil => simp at hc
  | cons a rest ih =>
    cases h : (a.id == id && a.owner_wallet == o)
    · simp only [updateCoupon, h, Bool.false_eq_true, if_false]
      rcases List.mem_cons.mp hc with h1 | h1
      · exact ⟨a, List.mem_cons_self _ _, h1 ▸ rfl, h1 ▸ rfl⟩
      · rcases ih h1 with ⟨c2, hc2, hk⟩
        exact ⟨c2, List.mem_cons_of_mem _ hc2, hk⟩
    · simp only [updateCoupon, h, if_true]
      rcases List.mem_cons.mp hc with h1 | h1
      · exact ⟨f a, List.mem_cons_self _ _, h1 ▸ hid a, h1 ▸ how a⟩
      · exact ⟨c, List.mem_cons_of_mem _ h1, rfl, rfl⟩

theorem fst_mem_updateCoupon (id o : String) (f : Coupon → Coupon)
    {cs : List Coupon} {y : Coupon}
    (hy : (updateCoupon id o f cs).1 = some y) :
    y ∈ (updateCoupon id o f cs).2 := by
  induction cs with
  | nil => simp [updateCoupon] at hy
  | cons c rest ih =>
    cases h : (c.id == id && c.owner_wallet == o)
    · simp only [updateCoupon, h, Bool.false_eq_true, if_false] at hy ⊢
      exact List.mem_cons_of_mem _ (ih hy)
    · simp only [updateCoupon, h, if_true] at hy ⊢
      injection hy with hy
      exact hy ▸ List.mem_cons_self _ _

theorem find?_updateCoupon (id o : String) (f : Coupon → Coupon)
    (hid : ∀ c, (f c).id = c.id)
    (how : ∀ c, (f c).owner_wallet = c.owner_wallet)
    {cs : List Coupon} {c0 : Coupon}
    (hfind : cs.find? (fun c => c.id == id && c.owner_wallet == o) = some c0) :
    ((updateCoupon id o f cs).2).find?
      (fun c => c.id == id && c.owner_wallet == o) = some (f c0) := by
  induction cs with
  | nil => simp at hfind
  | cons c rest ih =>
    cases h : (c.id == id && c.owner_wallet == o)
    · simp only [List.find?_cons, h] at hfind
      simp only [updateCoupon, h, Bool.false_eq_true, if_false]
      simp only [List.find?_cons, h]
      exact ih hfind
    · simp only [List.find?_cons, h] at hfind
      have hc0 : c = c0 := by injection hfind
      subst hc0
      have hfc : ((f c).id == id && (f c).owner_wallet == o) = true := by
        rw [hid, how]
        exact h
      simp only [updateCoupon, h, if_true, List.find?_cons, hfc]

theorem updateCoupon_congr (id o : String) (f g : Coupon → Coupon)
    {cs : List Coupon} {c0 : Coupon}
    (hfind : cs.find? (fun c => c.id == id && c.owner_wallet == o) = some c0)
    (hfg : f c0 = g c0) :
    updateCoupon id o f cs = updateCoupon id o g cs := by
  induction cs with
  | nil => rfl
  | cons c rest ih =>
    cases h : (c.id == id && c.owner_wallet == o)
    · simp only [List.find?_cons, h] at hfind
      simp only [updateCoupon, h, Bool.false_eq_true, if_false, ih hfind]
    · simp only [List.find?_cons, h] at hfind
      have hc0 : c = c0 := by injection hfind
      subst hc0
      simp only [updateCoupon, h, if_true, hfg]

/-! ### Facts about event sums -/

theorem couponEvents_set_rem (es : List Event) (c : Coupon) (r : ℚ) :
    couponEvents es { c with remaining_amount_sol := r } = couponEvents es c :=
  rfl

theorem couponEvents_append (es : List Event) (e : Event) (c : Coupon) :
    couponEvents (es ++ [e]) c = couponEvents es c ++
      if (e.coupon_id == c.id && e.owner_wallet == c.owner_wallet) then [e]
      else [] := by
  cases h : (e.coupon_id == c.id && e.owner_wallet == c.owner_wallet) <;>
    simp [couponEvents, getEventsForCoupon, List.filter_append, h]

theorem sumOfType_append (t : EvType) (l1 l2 : List Event) :
    sumOfType t (l1 ++ l2) = sumOfType t l1 + sumOfType t l2 := by
  simp [sumOfType, List.filter_append]

theorem sumOfType_cons (t : EvType) (e : Event) (tl : List Event) :
    sumOfType t (e :: tl) =
      (if e.type == t then e.amount_sol else 0) + sumOfType t tl := by
  cases h : (e.type == t) <;> simp [sumOfType, List.filter_cons, h]

theorem sumOfType_singleton (t : EvType) (e : Event) :
    sumOfType t [e] = if e.type == t then e.amount_sol else 0 := by
  rw [sumOfType_cons]
  simp [sumOfType]

theorem signedTotal_eq (es : List Event) :
    signedTotal es = sumOfType .create es + sumOfType .deposit es
      - sumOfType .withdraw es - sumOfType .pay es := by
  induction es with
  | nil => simp [signedTotal, sumOfType]
  | cons e tl ih =>
    have hs : signedTotal (e :: tl)
        = evDelta e.type e.amount_sol + signedTotal tl := by
      simp [signedTotal]
    rw [hs, ih, sumOfType_cons, sumOfType_cons, sumOfType_cons, sumOfType_cons]
    cases e.type <;> simp [evDelta] <;> ring

/-! ### C10: owner filtering in `getCouponById` is skipped for falsy owner -/

/-- C10: with the owner argument absent/null or the empty string,
`getCouponById` ignores the owner filter entirely and returns the first
coupon whose id matches, regardless of its `owner_wallet`. -/
theorem c10_getCouponById_falsy_owner (id : String) (cs : List Coupon) :
    getCouponById id none cs = cs.find? (fun c => c.id == id) ∧
    getCouponById id (some "") cs = cs.find? (fun c => c.id == id) := by
  constructor
  · have hp : (fun c : Coupon =>
        c.id == id && (!jsTruthy none || c.owner_wallet == (none : Option String).getD ""))
        = fun c : Coupon => c.id == id := by
      funext c
      simp [jsTruthy]
    unfold getCouponById
    rw [hp]
  · have hp : (fun c : Coupon =>
        c.id == id && (!jsTruthy (some "") || c.owner_wallet == (some "").getD ""))
        = fun c : Coupon => c.id == id := by
      funext c
      simp [jsTruthy]
    unfold getCouponById
    rw [hp]

/-! ### C4: a failed external transfer leaves the coupon untouched -/

/-- C4: when the withdraw-onchain route reaches the external transfer
(inputs valid, coupon found, balance sufficient) and the transfer
capability fails, the route reports the external-transfer failure and the
store — coupon balances and the event log — is completely unchanged. -/
theorem c4_withdraw_external_failure (st : St) (id : String)
    (wallet recipient : Option String) (amountSol amount : ℚ)
    (err ts : String) (coupon : Coupon)
    (hw : strField wallet ≠ "")
    (hr : strField recipient ≠ "")
    (ha : parseAmountSol amountSol = some amount)
    (hc : getCouponById id (some (strField wallet)) st.coupons = some coupon)
    (hbal : ¬ amount > coupon.remaining_amount_sol) :
    withdrawHandler st id wallet recipient amountSol (.error err) ts
      = (.externalTransferFailed err, st) := by
  have hbal0 : ¬ amount > jsOr0 coupon.remaining_amount_sol := by
    rw [jsOr0_eq]
    exact hbal
  simp [withdrawHandler, hw, hr, ha, hc, hbal0]

theorem c4_withdraw_external_failure_witness :
    (strField (some "W1") ≠ "" ∧ strField (some "R1") ≠ "" ∧
      parseAmountSol 1 = some 1 ∧
      getCouponById "CPN-0001" (some (strField (some "W1"))) wSt.coupons
        = some wCoupon ∧
      ¬ (1 : ℚ) > wCoupon.remaining_amount_sol) ∧
    withdrawHandler wSt "CPN-0001" (some "W1") (some "R1") 1
        (.error "network down") "t1"
      = (.externalTransferFailed "network down", wSt) :=
  ⟨⟨by decide, by decide, by decide, by decide, by decide⟩,
    c4_withdraw_external_failure wSt "CPN-0001" (some "W1") (some "R1") 1 1
      "network down" "t1" wCoupon (by decide) (by decide) (by decide)
      (by decide) (by decide)⟩

/-! ### C6: insufficient balance on Pay is rejected without state change -/

/-- C6: a Pay whose amount exceeds the coupon's remaining balance fails
with the insufficient-balance error, and the store — balances and event
log — is unchanged. -/
theorem c6_pay_insufficient_balance (st : St)
    (wallet couponIdRaw merchant note : Option String)
    (amountSol amount : ℚ) (ts : String) (coupon : Coupon)
    (hw : strField wallet ≠ "")
    (hcid : strField couponIdRaw ≠ "")
    (hm : strField merchant ≠ "")
    (ha : parseAmountSol amountSol = some amount)
    (hc : getCouponById (strField couponIdRaw) (some (strField wallet))
      st.coupons = some coupon)
    (hgt : amount > coupon.remaining_amount_sol) :
    payHandler st wallet couponIdRaw merchant note amountSol ts
      = (.insufficientBalance, st) := by
  have hgt0 : amount > jsOr0 coupon.remaining_amount_sol := by
    rw [jsOr0_eq]
    exact hgt
  simp [payHandler, hw, hcid, hm, ha, hc, hgt0]

theorem c6_pay_insufficient_balance_witness :
    (strField (some "W1") ≠ "" ∧ strField (some "CPN-0001") ≠ "" ∧
      strField (some "M1") ≠ "" ∧ parseAmountSol 5 = some 5 ∧
      getCouponById (strField (some "CPN-0001")) (some (strField (some "W1")))
        wSt.coupons = some wCoupon ∧
      (5 : ℚ) > wCoupon.remaining_amount_sol) ∧
    payHandler wSt (some "W1") (some "CPN-0001") (some "M1") none 5 "t1"
      = (.insufficientBalance, wSt) :=
  ⟨⟨by decide, by decide, by decide, by decide, by decide, by decide⟩,
    c6_pay_insufficient_balance wSt (some "W1") (some "CPN-0001") (some "M1")
      none 5 5 "t1" wCoupon (by decide) (by decide) (by decide) (by decide)
      (by decide) (by decide)⟩

/-! ### C8: successful Create -/

/-- C8: a Create with non-empty (trimmed) owner and label and a valid
positive amount returns a coupon whose initial and remaining amounts both
equal the amount, appends that coupon to the store, and appends exactly
one create event with `amount_sol` the amount, `to_address` the owner and
`tx_sig` null. -/
theorem c8_create_success (st : St) (wallet label expiry : Option String)
    (amountSol amount : ℚ) (newId ts : String)
    (hw : strField wallet ≠ "")
    (hl : strField label ≠ "")
    (ha : parseAmountSol amountSol = some amount) :
    createHandler st wallet label amountSol expiry newId ts =
      (.created
        { id := newId, label := strField label,
          owner_wallet := strField wallet, initial_amount_sol := amount,
          remaining_amount_sol := amount, expires_at := jsOrNone expiry,
          pool_address := poolAddress, created_at := ts },
       { coupons := st.coupons ++
          [{ id := newId, label := strField label,
             owner_wallet := strField wallet, initial_amount_sol := amount,
             remaining_amount_sol := amount, expires_at := jsOrNone expiry,
             pool_address := poolAddress, created_at := ts }],
         events := st.events ++
          [{ coupon_id := newId, owner_wallet := strField wallet,
             type := .create, amount_sol := amount,
             to_address := strField wallet, note := none, tx_sig := none,
             created_at := ts }] }) := by
  simp [createHandler, createCoupon, addEvent, hw, hl, ha]

unseal Rat.add Rat.sub Rat.mul Rat.inv in
theorem c8_create_success_witness :
    (strField (some "W1") ≠ "" ∧ strField (some "Lunch") ≠ "" ∧
      parseAmountSol (5/2) = some (5/2)) ∧
    createHandler emptySt (some "W1") (some "Lunch") (5/2) none "CPN-0002" "t0"
      = (.created
          { id := "CPN-0002", label := "Lunch", owner_wallet := "W1",
            initial_amount_sol := 5/2, remaining_amount_sol := 5/2,
            expires_at := none, pool_address := poolAddress,
            created_at := "t0" },
         { coupons :=
            [{ id := "CPN-0002", label := "Lunch", owner_wallet := "W1",
               initial_amount_sol := 5/2, remaining_amount_sol := 5/2,
               expires_at := none, pool_address := poolAddress,
               created_at := "t0" }],
           events :=
            [{ coupon_id := "CPN-0002", owner_wallet := "W1",
               type := .create, amount_sol := 5/2, to_address := "W1",
               note := none, tx_sig := none, created_at := "t0" }] }) := by
  refine ⟨⟨by decide, by decide, by decide⟩, ?_⟩
  have h := c8_create_success emptySt (some "W1") (some "Lunch") none (5/2)
    (5/2) "CPN-0002" "t0" (by decide) (by decide) (by decide)
  rw [h]
  simp [emptySt, strField, jsTrim, jsOrNone]

/-! ### C5: successful WithdrawOnchain -/

/-- C5: a WithdrawOnchain with valid inputs, an existing coupon, amount
within the remaining balance, and a transfer capability returning a
confirmed signature, appends exactly one withdraw event carrying that
signature and the (trimmed) recipient, decreases the coupon's remaining
balance by exactly the amount, and returns the updated coupon, the event
and the signature. -/
theorem c5_withdraw_success (st : St) (id : String)
    (wallet recipient : Option String) (amountSol amount : ℚ)
    (sig ts : String) (coupon : Coupon)
    (hw : strField wallet ≠ "")
    (hr : strField recipient ≠ "")
    (ha : parseAmountSol amountSol = some amount)
    (hc : getCouponById id (some (strField wallet)) st.coupons = some coupon)
    (hbal : ¬ amount > coupon.remaining_amount_sol) :
    (withdrawHandler st id wallet recipient amountSol (.ok sig) ts).2.events
      = st.events ++
        [{ coupon_id := id, owner_wallet := strField wallet,
           type := .withdraw, amount_sol := amount,
           to_address := strField recipient, note := none,
           tx_sig := some sig, created_at := ts }] ∧
    (withdrawHandler st id wallet recipient amountSol (.ok sig) ts).1
      = .okWithdraw
          (some { coupon with
            remaining_amount_sol := coupon.remaining_amount_sol - amount })
          { coupon_id := id, owner_wallet := strField wallet,
            type := .withdraw, amount_sol := amount,
            to_address := strField recipient, note := none,
            tx_sig := some sig, created_at := ts } sig ∧
    getCouponById id (some (strField wallet))
        (withdrawHandler st id wallet recipient amountSol (.ok sig) ts).2.coupons
      = some { coupon with
          remaining_amount_sol := coupon.remaining_amount_sol - amount } := by
  have hbal0 : ¬ amount > jsOr0 coupon.remaining_amount_sol := by
    rw [jsOr0_eq]
    exact hbal
  have hfind : st.coupons.find?
      (fun c => c.id == id && c.owner_wallet == strField wallet)
      = some coupon := by
    rw [← getCouponById_some_owner id (strField wallet) hw]
    exact hc
  simp only [withdrawHandler, hw, hr, ha, hc, hbal0, if_neg, ite_false,
    addEvent]
  simp [hw, hr, hbal0]
  refine ⟨?_, ?_⟩
  · rw [updateCoupon_fst, hfind]
    simp [jsOr0_eq]
  · rw [getCouponById_some_owner id (strField wallet) hw]
    have := find?_updateCoupon id (strField wallet)
      (fun c => { c with
        remaining_amount_sol := jsOr0 coupon.remaining_amount_sol - amount })
      (fun c => rfl) (fun c => rfl) hfind
    rw [this, jsOr0_eq]

unseal Rat.add Rat.sub in
theorem c5_withdraw_success_witness :
    (strField (some "W1") ≠ "" ∧ strField (some "R1") ≠ "" ∧
      parseAmountSol 1 = some 1 ∧
      getCouponById "CPN-0001" (some (strField (some "W1"))) wSt.coupons
        = some wCoupon ∧
      ¬ (1 : ℚ) > wCoupon.remaining_amount_sol) ∧
    (withdrawHandler wSt "CPN-0001" (some "W1") (some "R1") 1
        (.ok "SIG123") "t1").2.events
      = wSt.events ++
        [{ coupon_id := "CPN-0001", owner_wallet := strField (some "W1"),
           type := .withdraw, amount_sol := 1,
           to_address := strField (some "R1"), note := none,
           tx_sig := some "SIG123", created_at := "t1" }] ∧
    (withdrawHandler wSt "CPN-0001" (some "W1") (some "R1") 1
        (.ok "SIG123") "t1").1
      = .okWithdraw
          (some { wCoupon with
            remaining_amount_sol := wCoupon.remaining_amount_sol - 1 })
          { coupon_id := "CPN-0001", owner_wallet := strField (some "W1"),
            type := .withdraw, amount_sol := 1,
            to_address := strField (some "R1"), note := none,
            tx_sig := some "SIG123", created_at := "t1" } "SIG123" ∧
    getCouponById "CPN-0001" (some (strField (some "W1")))
        (withdrawHandler wSt "CPN-0001" (some "W1") (some "R1") 1
          (.ok "SIG123") "t1").2.coupons
      = some { wCoupon with
          remaining_amount_sol := wCoupon.remaining_amount_sol - 1 } :=
  ⟨⟨by decide, by decide, by decide, by decide, by decide⟩,
    c5_withdraw_success wSt "CPN-0001" (some "W1") (some "R1") 1 1
      "SIG123" "t1" wCoupon (by decide) (by decide) (by decide) (by decide)
      (by decide)⟩

/-! ### C7: successful Pay -/

/-- C7: a Pay with valid inputs, an existing coupon for the owner, and an
amount within the remaining balance decreases the coupon's balance by
exactly the amount and appends exactly one pay event with `to_address`
the (trimmed) merchant, the supplied note, and `tx_sig` null; the pay
route involves no external transfer capability at all. -/
theorem c7_pay_success (st : St)
    (wallet couponIdRaw merchant note : Option String)
    (amountSol amount : ℚ) (ts : String) (coupon : Coupon)
    (hw : strField wallet ≠ "")
    (hcid : strField couponIdRaw ≠ "")
    (hm : strField merchant ≠ "")
    (ha : parseAmountSol amountSol = some amount)
    (hc : getCouponById (strField couponIdRaw) (some (strField wallet))
      st.coupons = some coupon)
    (hbal : ¬ amount > coupon.remaining_amount_sol) :
    (payHandler st wallet couponIdRaw merchant note amountSol ts).2.events
      = st.events ++
        [{ coupon_id := strField couponIdRaw,
           owner_wallet := strField wallet, type := .pay,
           amount_sol := amount, to_address := strField merchant,
           note := jsOrNone note, tx_sig := none, created_at := ts }] ∧
    (payHandler st wallet couponIdRaw merchant note amountSol ts).1
      = .okEvent
          (some { coupon with
            remaining_amount_sol := coupon.remaining_amount_sol - amount })
          { coupon_id := strField couponIdRaw,
            owner_wallet := strField wallet, type := .pay,
            amount_sol := amount, to_address := strField merchant,
            note := jsOrNone note, tx_sig := none, created_at := ts } ∧
    getCouponById (strField couponIdRaw) (some (strField wallet))
        (payHandler st wallet couponIdRaw merchant note amountSol ts).2.coupons
      = some { coupon with
          remaining_amount_sol := coupon.remaining_amount_sol - amount } := by
  have hbal0 : ¬ amount > jsOr0 coupon.remaining_amount_sol := by
    rw [jsOr0_eq]
    exact hbal
  have hfind : st.coupons.find?
      (fun c => c.id == strField couponIdRaw &&
        c.owner_wallet == strField wallet)
      = some coupon := by
    rw [← getCouponById_some_owner (strField couponIdRaw) (strField wallet) hw]
    exact hc
  simp [payHandler, hw, hcid, hm, ha, hc, hbal0, addEvent]
  refine ⟨?_, ?_⟩
  · rw [updateCoupon_fst, hfind]
    simp [jsOr0_eq]
  · rw [getCouponById_some_owner (strField couponIdRaw) (strField wallet) hw]
    have := find?_updateCoupon (strField couponIdRaw) (strField wallet)
      (fun c => { c with
        remaining_amount_sol := jsOr0 coupon.remaining_amount_sol - amount })
      (fun c => rfl) (fun c => rfl) hfind
    rw [this, jsOr0_eq]

unseal Rat.add Rat.sub in
theorem c7_pay_success_witness :
    (strField (some "W1") ≠ "" ∧ strField (some "CPN-0001") ≠ "" ∧
      strField (some "M1") ≠ "" ∧ parseAmountSol 1 = some 1 ∧
      getCouponById (strField (some "CPN-0001")) (some (strField (some "W1")))
        wSt.coupons = some wCoupon ∧
      ¬ (1 : ℚ) > wCoupon.remaining_amount_sol) ∧
    (payHandler wSt (some "W1") (some "CPN-0001") (some "M1") (some "lunch")
        1 "t1").2.events
      = wSt.events ++
        [{ coupon_id := strField (some "CPN-0001"),
           owner_wallet := strField (some "W1"), type := .pay,
           amount_sol := 1, to_address := strField (some "M1"),
           note := jsOrNone (some "lunch"), tx_sig := none,
           created_at := "t1" }] ∧
    (payHandler wSt (some "W1") (some "CPN-0001") (some "M1") (some "lunch")
        1 "t1").1
      = .okEvent
          (some { wCoupon with
            remaining_amount_sol := wCoupon.remaining_amount_sol - 1 })
          { coupon_id := strField (some "CPN-0001"),
            owner_wallet := strField (some "W1"), type := .pay,
            amount_sol := 1, to_address := strField (some "M1"),
            note := jsOrNone (some "lunch"), tx_sig := none,
            created_at := "t1" } ∧
    getCouponById (strField (some "CPN-0001")) (some (strField (some "W1")))
        (payHandler wSt (some "W1") (some "CPN-0001") (some "M1")
          (some "lunch") 1 "t1").2.coupons
      = some { wCoupon with
          remaining_amount_sol := wCoupon.remaining_amount_sol - 1 } :=
  ⟨⟨by decide, by decide, by decide, by decide, by decide, by decide⟩,
    c7_pay_success wSt (some "W1") (some "CPN-0001") (some "M1")
      (some "lunch") 1 1 "t1" wCoupon (by decide) (by decide) (by decide)
      (by decide) (by decide) (by decide)⟩

/-! ### C9: owner scoping of reads -/

/-- C9: for every stored state and every query, listing coupons for a
wallet returns only coupons (and attached events) whose `owner_wallet` is
that wallet, and the event query behind History returns only events whose
`owner_wallet` is that wallet; in particular, History queried with an
existing coupon id but a non-matching, non-empty owner fails with
not-found and returns no data. -/
theorem c9_owner_scoping (st : St) (id : String) (wRaw : Option String) :
    (∀ p ∈ (getCouponsByOwner (strField wRaw) st.coupons).map
        (fun c => (c, getEventsForCoupon c.id c.owner_wallet st.events)),
      p.1.owner_wallet = strField wRaw ∧
      ∀ e ∈ p.2, e.owner_wallet = strField wRaw) ∧
    (∀ e ∈ getEventsForCoupon id (strField wRaw) st.events,
      e.owner_wallet = strField wRaw) ∧
    (strField wRaw ≠ "" →
      (∃ c ∈ st.coupons, c.id = id ∧ c.owner_wallet ≠ strField wRaw) →
      (∀ c ∈ st.coupons, ¬(c.id = id ∧ c.owner_wallet = strField wRaw)) →
      historyHandler st id wRaw
        = .notFound "coupon not found for this wallet") := by
  refine ⟨?_, ?_, ?_⟩
  · intro p hp
    rcases List.mem_map.mp hp with ⟨c, hcmem, rfl⟩
    simp only [getCouponsByOwner] at hcmem
    have hcw : c.owner_wallet = strField wRaw :=
      beq_iff_eq.mp (List.mem_filter.mp hcmem).2
    refine ⟨hcw, ?_⟩
    intro e he
    simp only [getEventsForCoupon] at he
    have h2 := (Bool.and_eq_true _ _).mp (List.mem_filter.mp he).2
    rw [beq_iff_eq.mp h2.2, hcw]
  · intro e he
    simp only [getEventsForCoupon] at he
    have h2 := (Bool.and_eq_true _ _).mp (List.mem_filter.mp he).2
    exact beq_iff_eq.mp h2.2
  · intro hw _hex hnone
    have hnf : getCouponById id (some (strField wRaw)) st.coupons = none := by
      rw [getCouponById_some_owner id (strField wRaw) hw, List.find?_eq_none]
      intro c hcmem hp
      rcases (Bool.and_eq_true _ _).mp hp with ⟨h1, h2⟩
      exact hnone c hcmem ⟨beq_iff_eq.mp h1, beq_iff_eq.mp h2⟩
    simp [historyHandler, hw, hnf]

theorem c9_owner_scoping_witness :
    (strField (some "W1") ≠ "" ∧
      (∃ c ∈ c9St.coupons, c.id = "CPN-B1" ∧
        c.owner_wallet ≠ strField (some "W1")) ∧
      (∀ c ∈ c9St.coupons,
        ¬(c.id = "CPN-B1" ∧ c.owner_wallet = strField (some "W1")))) ∧
    ((∀ p ∈ (getCouponsByOwner (strField (some "W1")) c9St.coupons).map
        (fun c => (c, getEventsForCoupon c.id c.owner_wallet c9St.events)),
      p.1.owner_wallet = strField (some "W1") ∧
      ∀ e ∈ p.2, e.owner_wallet = strField (some "W1")) ∧
    (∀ e ∈ getEventsForCoupon "CPN-B1" (strField (some "W1")) c9St.events,
      e.owner_wallet = strField (some "W1")) ∧
    historyHandler c9St "CPN-B1" (some "W1")
      = .notFound "coupon not found for this wallet") ∧
    (getCouponsByOwner (strField (some "W1")) c9St.coupons).map
        (fun c => (c, getEventsForCoupon c.id c.owner_wallet c9St.events))
      = [(c9CouponA, [c9EventA])] :=
  ⟨⟨by decide, by decide, by decide⟩,
    ⟨(c9_owner_scoping c9St "CPN-B1" (some "W1")).1,
     (c9_owner_scoping c9St "CPN-B1" (some "W1")).2.1,
     (c9_owner_scoping c9St "CPN-B1" (some "W1")).2.2 (by decide) (by decide)
       (by decide)⟩,
    by decide⟩

/-! ### Preservation of the ledger invariant -/

theorem inv_emptySt : Inv emptySt := by
  refine ⟨by simp [emptySt], by simp [emptySt], by simp [emptySt]⟩

/-- Appending a non-create event for an existing coupon while setting that
coupon's balance to the event-adjusted value preserves the invariant. -/
theorem inv_update_append (st : St) (id o : String)
    (coupon : Coupon) (ev : Event) (newRem : ℚ)
    (hInv : Inv st)
    (hfind : st.coupons.find?
      (fun c => c.id == id && c.owner_wallet == o) = some coupon)
    (hevid : ev.coupon_id = id) (hevo : ev.owner_wallet = o)
    (hnc : ev.type ≠ .create)
    (hd : newRem = coupon.remaining_amount_sol + evDelta ev.type ev.amount_sol)
    (h0 : 0 ≤ newRem) :
    Inv { coupons := (updateCoupon id o
            (fun c => { c with remaining_amount_sol := newRem })
            st.coupons).2,
          events := st.events ++ [ev] } := by
  obtain ⟨hnd, hev, hcs⟩ := hInv
  have hcoupon_mem : coupon ∈ st.coupons := List.mem_of_find?_eq_some hfind
  have hpc := List.find?_some hfind
  have hcid : coupon.id = id :=
    beq_iff_eq.mp ((Bool.and_eq_true _ _).mp hpc).1
  have hco : coupon.owner_wallet = o :=
    beq_iff_eq.mp ((Bool.and_eq_true _ _).mp hpc).2
  have hmatch :
      (ev.coupon_id == coupon.id && ev.owner_wallet == coupon.owner_wallet)
        = true := by
    simp [hevid, hevo, hcid, hco]
  have hcreate_ev : (ev.type == EvType.create) = false := by
    cases hb : (ev.type == EvType.create)
    · rfl
    · exact absurd (beq_iff_eq.mp hb) hnc
  refine ⟨?_, ?_, ?_⟩
  · show ((updateCoupon id o
      (fun c => { c with remaining_amount_sol := newRem })
      st.coupons).2.map Coupon.id).Nodup
    rw [updateCoupon_map_id id o
      (fun c => { c with remaining_amount_sol := newRem }) (fun c => rfl)]
    exact hnd
  · intro e he
    rcases List.mem_append.mp he with h1 | h1
    · obtain ⟨c, hc, hk1, hk2⟩ := hev e h1
      obtain ⟨c2, hc2, hk⟩ := updateCoupon_key_surj id o
        (fun c => { c with remaining_amount_sol := newRem })
        (fun c => rfl) (fun c => rfl) hc
      exact ⟨c2, hc2, hk.1.trans hk1, hk.2.trans hk2⟩
    · have he2 : e = ev := by simpa using h1
      subst he2
      have hfst : (updateCoupon id o
          (fun c => { c with remaining_amount_sol := newRem })
          st.coupons).1
          = some { coupon with remaining_amount_sol := newRem } := by
        rw [updateCoupon_fst, hfind]
        rfl
      refine ⟨{ coupon with remaining_amount_sol := newRem },
        fst_mem_updateCoupon _ _ _ hfst, ?_, ?_⟩
      · show coupon.id = e.coupon_id
        rw [hcid, hevid]
      · show coupon.owner_wallet = e.owner_wallet
        rw [hco, hevo]
  · intro x hx
    rcases mem_updateCoupon_of_nodup id o _ hnd hfind hx with h1 | ⟨h1, h2⟩
    · subst h1
      obtain ⟨hx0, hxc, hxb⟩ := hcs coupon hcoupon_mem
      have hce : couponEvents (st.events ++ [ev])
          { coupon with remaining_amount_sol := newRem }
          = couponEvents st.events coupon ++ [ev] := by
        rw [couponEvents_set_rem, couponEvents_append, hmatch]
        simp
      refine ⟨h0, ?_, ?_⟩
      · show sumOfType .create (couponEvents (st.events ++ [ev])
          { coupon with remaining_amount_sol := newRem })
          = coupon.initial_amount_sol
        rw [hce, sumOfType_append, sumOfType_singleton, hcreate_ev]
        simpa using hxc
      · show balanceEq (st.events ++ [ev])
          { coupon with remaining_amount_sol := newRem }
        unfold balanceEq at hxb ⊢
        rw [hce]
        show newRem = _
        rw [sumOfType_append, sumOfType_append, sumOfType_append,
          sumOfType_singleton, sumOfType_singleton, sumOfType_singleton]
        cases hty : ev.type with
        | create => exact absurd hty hnc
        | deposit =>
          rw [hty] at hd
          simp only [evDelta] at hd
          simp only [hty,
            show (EvType.deposit == EvType.deposit) = true from rfl,
            show (EvType.deposit == EvType.withdraw) = false from rfl,
            show (EvType.deposit == EvType.pay) = false from rfl,
            eq_self_iff_true, Bool.false_eq_true, if_true, if_false]
          linarith [hd, hxb]
        | withdraw =>
          rw [hty] at hd
          simp only [evDelta] at hd
          simp only [hty,
            show (EvType.withdraw == EvType.deposit) = false from rfl,
            show (EvType.withdraw == EvType.withdraw) = true from rfl,
            show (EvType.withdraw == EvType.pay) = false from rfl,
            eq_self_iff_true, Bool.false_eq_true, if_true, if_false]
          linarith [hd, hxb]
        | pay =>
          rw [hty] at hd
          simp only [evDelta] at hd
          simp only [hty,
            show (EvType.pay == EvType.deposit) = false from rfl,
            show (EvType.pay == EvType.withdraw) = false from rfl,
            show (EvType.pay == EvType.pay) = true from rfl,
            eq_self_iff_true, Bool.false_eq_true, if_true, if_false]
          linarith [hd, hxb]
    · have hne : (ev.coupon_id == x.id && ev.owner_wallet == x.owner_wallet)
          = false := by
        cases hb : (ev.coupon_id == x.id && ev.owner_wallet == x.owner_wallet)
        · rfl
        · rcases (Bool.and_eq_true _ _).mp hb with ⟨hb1, hb2⟩
          exact absurd ⟨(beq_iff_eq.mp hb1).symm.trans hevid,
            (beq_iff_eq.mp hb2).symm.trans hevo⟩ h2
      have hce : couponEvents (st.events ++ [ev]) x
          = couponEvents st.events x := by
        rw [couponEvents_append, hne]
        simp
      obtain ⟨hx0, hxc, hxb⟩ := hcs x h1
      refine ⟨hx0, ?_, ?_⟩
      · rw [hce]
        exact hxc
      · unfold balanceEq at hxb ⊢
        rw [hce]
        exact hxb

/-- Creating a coupon with a fresh id together with its create event
preserves the invariant. -/
theorem inv_create (st : St) (coupon : Coupon) (ev : Event)
    (hInv : Inv st)
    (hfresh : ∀ c ∈ st.coupons, ¬ c.id = coupon.id)
    (hevid : ev.coupon_id = coupon.id)
    (hevo : ev.owner_wallet = coupon.owner_wallet)
    (hty : ev.type = .create)
    (hamt : ev.amount_sol = coupon.initial_amount_sol)
    (hrem : coupon.remaining_amount_sol = coupon.initial_amount_sol)
    (h0 : 0 ≤ coupon.remaining_amount_sol) :
    Inv { coupons := st.coupons ++ [coupon], events := st.events ++ [ev] } := by
  obtain ⟨hnd, hev, hcs⟩ := hInv
  refine ⟨?_, ?_, ?_⟩
  · rw [List.map_append]
    refine List.Nodup.append hnd (List.nodup_singleton _) ?_
    intro a ha hb
    simp only [List.map_cons, List.map_nil, List.mem_singleton] at hb
    rcases List.mem_map.mp ha with ⟨c, hc, hcid⟩
    exact hfresh c hc (hcid ▸ hb)
  · intro e he
    rcases List.mem_append.mp he with h1 | h1
    · obtain ⟨c, hc, hk⟩ := hev e h1
      exact ⟨c, List.mem_append_left _ hc, hk⟩
    · have he2 : e = ev := by simpa using h1
      subst he2
      exact ⟨coupon, List.mem_append_right _ (List.mem_singleton_self _),
        hevid.symm, hevo.symm⟩
  · intro x hx
    rcases List.mem_append.mp hx with h1 | h1
    · have hne : (ev.coupon_id == x.id && ev.owner_wallet == x.owner_wallet)
          = false := by
        cases hb : (ev.coupon_id == x.id && ev.owner_wallet == x.owner_wallet)
        · rfl
        · rcases (Bool.and_eq_true _ _).mp hb with ⟨hb1, hb2⟩
          exact absurd ((beq_iff_eq.mp hb1).symm.trans hevid) (hfresh x h1)
      have hce : couponEvents (st.events ++ [ev]) x
          = couponEvents st.events x := by
        rw [couponEvents_append, hne]
        simp
      obtain ⟨hx0, hxc, hxb⟩ := hcs x h1
      refine ⟨hx0, ?_, ?_⟩
      · rw [hce]
        exact hxc
      · unfold balanceEq at hxb ⊢
        rw [hce]
        exact hxb
    · have hx2 : x = coupon := by simpa using h1
      subst hx2
      have hempty : couponEvents st.events x = [] := by
        unfold couponEvents getEventsForCoupon
        rw [List.filter_eq_nil_iff]
        intro e he hb
        rcases (Bool.and_eq_true _ _).mp hb with ⟨hb1, hb2⟩
        obtain ⟨c, hc, hk1, hk2⟩ := hev e he
        exact hfresh c hc (hk1.trans (beq_iff_eq.mp hb1))
      have hmatch :
          (ev.coupon_id == x.id && ev.owner_wallet == x.owner_wallet)
            = true := by
        simp [hevid, hevo]
      have hce : couponEvents (st.events ++ [ev]) x = [ev] := by
        rw [couponEvents_append, hmatch, hempty]
        simp
      refine ⟨h0, ?_, ?_⟩
      · rw [hce, sumOfType_singleton, hty]
        simpa using hamt
      · unfold balanceEq
        rw [hce, sumOfType_singleton, sumOfType_singleton,
          sumOfType_singleton, hty]
        simpa using hrem

/-- Every single route invocation preserves the ledger invariant, provided
a created coupon's generated id is fresh. -/
theorem step_inv (st : St) (op : Op) (hInv : Inv st)
    (hfresh : freshOkB st op = true) : Inv (step st op).2 := by
  cases op with
  | create w l a exp newId ts =>
    simp only [freshOkB] at hfresh
    by_cases hw : strField w = ""
    · simp [step, createHandler, hw]
      exact hInv
    · by_cases hl : strField l = ""
      · simp [step, createHandler, hw, hl]
        exact hInv
      · cases ha : parseAmountSol a with
        | none =>
          simp [step, createHandler, hw, hl, ha]
          exact hInv
        | some amount =>
          obtain ⟨hpos, -⟩ := parseAmountSol_some ha
          simp only [step, createHandler, hw, hl, ha, if_neg, ite_false]
          apply inv_create st _ _ hInv
          · intro c hc
            have := List.all_eq_true.mp hfresh c hc
            simp only [Bool.not_eq_eq_eq_not, Bool.not_true] at this
            exact beq_eq_false_iff_ne.mp this
          · rfl
          · rfl
          · rfl
          · rfl
          · rfl
          · exact le_of_lt hpos
  | deposit id w a tx ts =>
    by_cases hw : strField w = ""
    · simp [step, depositHandler, hw]
      exact hInv
    · cases ha : parseAmountSol a with
      | none =>
        simp [step, depositHandler, hw, ha]
        exact hInv
      | some amount =>
        cases hge : getCouponById id (some (strField w)) st.coupons with
        | none =>
          simp [step, depositHandler, hw, ha, hge]
          exact hInv
        | some coupon =>
          obtain ⟨hpos, -⟩ := parseAmountSol_some ha
          have hfind : st.coupons.find?
              (fun c => c.id == id && c.owner_wallet == strField w)
              = some coupon := by
            rw [← getCouponById_some_owner id (strField w) hw]
            exact hge
          have hrem0 : 0 ≤ coupon.remaining_amount_sol :=
            (hInv.2.2 coupon (List.mem_of_find?_eq_some hfind)).1
          have hcongr := updateCoupon_congr id (strField w)
            (fun c => { c with
              remaining_amount_sol := jsOr0 c.remaining_amount_sol + amount })
            (fun c => { c with
              remaining_amount_sol := jsOr0 coupon.remaining_amount_sol + amount })
            hfind rfl
          simp only [step, depositHandler, hw, ha, hge, if_neg, ite_false]
          rw [hcongr]
          apply inv_update_append st id (strField w) coupon _ _ hInv hfind
          · rfl
          · rfl
          · intro hcon
            exact EvType.noConfusion hcon
          · show jsOr0 coupon.remaining_amount_sol + amount
              = coupon.remaining_amount_sol + evDelta .deposit amount
            rw [jsOr0_eq]
            rfl
          · show 0 ≤ jsOr0 coupon.remaining_amount_sol + amount
            rw [jsOr0_eq]
            linarith
  | withdrawOnchain id w r a x ts =>
    by_cases hw : strField w = ""
    · simp [step, withdrawHandler, hw]
      exact hInv
    · by_cases hr : strField r = ""
      · simp [step, withdrawHandler, hw, hr]
        exact hInv
      · cases ha : parseAmountSol a with
        | none =>
          simp [step, withdrawHandler, hw, hr, ha]
          exact hInv
        | some amount =>
          cases hge : getCouponById id (some (strField w)) st.coupons with
          | none =>
            simp [step, withdrawHandler, hw, hr, ha, hge]
            exact hInv
          | some coupon =>
            by_cases hbal : amount > jsOr0 coupon.remaining_amount_sol
            · simp [step, withdrawHandler, hw, hr, ha, hge, hbal]
              exact hInv
            · cases x with
              | error e =>
                simp [step, withdrawHandler, hw, hr, ha, hge, hbal]
                exact hInv
              | ok sig =>
                have hfind : st.coupons.find?
                    (fun c => c.id == id && c.owner_wallet == strField w)
                    = some coupon := by
                  rw [← getCouponById_some_owner id (strField w) hw]
                  exact hge
                simp only [step, withdrawHandler, hw, hr, ha, hge, hbal,
                  if_neg, ite_false]
                apply inv_update_append st id (strField w) coupon _ _
                  hInv hfind
                · rfl
                · rfl
                · intro hcon
                  exact EvType.noConfusion hcon
                · show jsOr0 coupon.remaining_amount_sol - amount
                    = coupon.remaining_amount_sol + evDelta .withdraw amount
                  rw [jsOr0_eq]
                  show _ = coupon.remaining_amount_sol + -amount
                  ring
                · show 0 ≤ jsOr0 coupon.remaining_amount_sol - amount
                  rw [jsOr0_eq] at hbal ⊢
                  linarith [not_lt.mp hbal]
  | pay w cid m n a ts =>
    by_cases hw : strField w = ""
    · simp [step, payHandler, hw]
      exact hInv
    · by_cases hcid : strField cid = ""
      · simp [step, payHandler, hw, hcid]
        exact hInv
      · by_cases hm : strField m = ""
        · simp [step, payHandler, hw, hcid, hm]
          exact hInv
        · cases ha : parseAmountSol a with
          | none =>
            simp [step, payHandler, hw, hcid, hm, ha]
            exact hInv
          | some amount =>
            cases hge : getCouponById (strField cid) (some (strField w))
                st.coupons with
            | none =>
              simp [step, payHandler, hw, hcid, hm, ha, hge]
              exact hInv
            | some coupon =>
              by_cases hbal : amount > jsOr0 coupon.remaining_amount_sol
              · simp [step, payHandler, hw, hcid, hm, ha, hge, hbal]
                exact hInv
              · have hfind : st.coupons.find?
                    (fun c => c.id == strField cid &&
                      c.owner_wallet == strField w)
                    = some coupon := by
                  rw [← getCouponById_some_owner (strField cid)
                    (strField w) hw]
                  exact hge
                simp only [step, payHandler, hw, hcid, hm, ha, hge, hbal,
                  if_neg, ite_false]
                apply inv_update_append st (strField cid) (strField w)
                  coupon _ _ hInv hfind
                · rfl
                · rfl
                · intro hcon
                  exact EvType.noConfusion hcon
                · show jsOr0 coupon.remaining_amount_sol - amount
                    = coupon.remaining_amount_sol + evDelta .pay amount
                  rw [jsOr0_eq]
                  show _ = coupon.remaining_amount_sol + -amount
                  ring
                · show 0 ≤ jsOr0 coupon.remaining_amount_sol - amount
                  rw [jsOr0_eq] at hbal ⊢
                  linarith [not_lt.mp hbal]

/-- Running any fresh-id operation sequence preserves the invariant. -/
theorem run_inv (ops : List Op) : ∀ st : St, Inv st →
    freshRunB st ops = true → Inv (run st ops) := by
  induction ops with
  | nil =>
    intro st h _
    exact h
  | cons op ops ih =>
    intro st h hf
    simp only [freshRunB] at hf
    rcases (Bool.and_eq_true _ _).mp hf with ⟨h1, h2⟩
    simp only [run]
    exact ih _ (step_inv st op h h1) h2

/-- Every single route invocation preserves non-negativity of all coupon
balances — with no assumption at all on id generation. -/
theorem step_nonneg (st : St) (op : Op) (h : NonnegInv st) :
    NonnegInv (step st op).2 := by
  cases op with
  | create w l a exp newId ts =>
    by_cases hw : strField w = ""
    · simp [step, createHandler, hw]
      exact h
    · by_cases hl : strField l = ""
      · simp [step, createHandler, hw, hl]
        exact h
      · cases ha : parseAmountSol a with
        | none =>
          simp [step, createHandler, hw, hl, ha]
          exact h
        | some amount =>
          obtain ⟨hpos, -⟩ := parseAmountSol_some ha
          simp only [step, createHandler, hw, hl, ha, if_neg, ite_false]
          intro x hx
          rcases List.mem_append.mp hx with h1 | h1
          · exact h x h1
          · have hx2 := List.mem_singleton.mp h1
            rw [hx2]
            exact le_of_lt hpos
  | deposit id w a tx ts =>
    by_cases hw : strField w = ""
    · simp [step, depositHandler, hw]
      exact h
    · cases ha : parseAmountSol a with
      | none =>
        simp [step, depositHandler, hw, ha]
        exact h
      | some amount =>
        cases hge : getCouponById id (some (strField w)) st.coupons with
        | none =>
          simp [step, depositHandler, hw, ha, hge]
          exact h
        | some coupon =>
          obtain ⟨hpos, -⟩ := parseAmountSol_some ha
          simp only [step, depositHandler, hw, ha, hge, if_neg, ite_false]
          intro x hx
          rcases mem_updateCoupon_weak _ _ _ hx with h1 | ⟨c0, hc0, rfl⟩
          · exact h x h1
          · show 0 ≤ jsOr0 c0.remaining_amount_sol + amount
            rw [jsOr0_eq]
            have := h c0 (List.mem_of_find?_eq_some hc0)
            linarith
  | withdrawOnchain id w r a x ts =>
    by_cases hw : strField w = ""
    · simp [step, withdrawHandler, hw]
      exact h
    · by_cases hr : strField r = ""
      · simp [step, withdrawHandler, hw, hr]
        exact h
      · cases ha : parseAmountSol a with
        | none =>
          simp [step, withdrawHandler, hw, hr, ha]
          exact h
        | some amount =>
          cases hge : getCouponById id (some (strField w)) st.coupons with
          | none =>
            simp [step, withdrawHandler, hw, hr, ha, hge]
            exact h
          | some coupon =>
            by_cases hbal : amount > jsOr0 coupon.remaining_amount_sol
            · simp [step, withdrawHandler, hw, hr, ha, hge, hbal]
              exact h
            · cases x with
              | error e =>
                simp [step, withdrawHandler, hw, hr, ha, hge, hbal]
                exact h
              | ok sig =>
                simp only [step, withdrawHandler, hw, hr, ha, hge, hbal,
                  if_neg, ite_false]
                intro x hx
                rcases mem_updateCoupon_weak _ _ _ hx with h1 | ⟨c0, hc0, rfl⟩
                · exact h x h1
                · show 0 ≤ jsOr0 coupon.remaining_amount_sol - amount
                  rw [jsOr0_eq] at hbal ⊢
                  linarith [not_lt.mp hbal]
  | pay w cid m n a ts =>
    by_cases hw : strField w = ""
    · simp [step, payHandler, hw]
      exact h
    · by_cases hcid : strField cid = ""
      · simp [step, payHandler, hw, hcid]
        exact h
      · by_cases hm : strField m = ""
        · simp [step, payHandler, hw, hcid, hm]
          exact h
        · cases ha : parseAmountSol a with
          | none =>
            simp [step, payHandler, hw, hcid, hm, ha]
            exact h
          | some amount =>
            cases hge : getCouponById (strField cid) (some (strField w))
                st.coupons with
            | none =>
              simp [step, payHandler, hw, hcid, hm, ha, hge]
              exact h
            | some coupon =>
              by_cases hbal : amount > jsOr0 coupon.remaining_amount_sol
              · simp [step, payHandler, hw, hcid, hm, ha, hge, hbal]
                exact h
              · simp only [step, payHandler, hw, hcid, hm, ha, hge, hbal,
                  if_neg, ite_false]
                intro x hx
                rcases mem_updateCoupon_weak _ _ _ hx with h1 | ⟨c0, hc0, rfl⟩
                · exact h x h1
                · show 0 ≤ jsOr0 coupon.remaining_amount_sol - amount
                  rw [jsOr0_eq] at hbal ⊢
                  linarith [not_lt.mp hbal]

/-- Non-negativity is preserved along every operation sequence. -/
theorem run_nonneg (ops : List Op) : ∀ st : St, NonnegInv st →
    NonnegInv (run st ops) := by
  induction ops with
  | nil =>
    intro st h
    exact h
  | cons op ops ih =>
    intro st h
    simp only [run]
    exact ih _ (step_nonneg st op h)

/-! ### C1, C2, C3: the global ledger invariants -/

/-- C1: starting from an empty store, after any sequence of ledger
operations whose generated coupon ids are collision-free (the spec's
standing assumption on `generateCouponId`), every stored coupon's
remaining amount equals its initial amount plus the sum of its deposit
events minus the sums of its withdraw and pay events. -/
theorem c1_balance_conservation (ops : List Op)
    (hfresh : freshRunB emptySt ops = true)
    (c : Coupon) (hc : c ∈ (run emptySt ops).coupons) :
    c.remaining_amount_sol =
      c.initial_amount_sol
      + sumOfType .deposit (couponEvents (run emptySt ops).events c)
      - sumOfType .withdraw (couponEvents (run emptySt ops).events c)
      - sumOfType .pay (couponEvents (run emptySt ops).events c) :=
  ((run_inv ops emptySt inv_emptySt hfresh).2.2 c hc).2.2

unseal Rat.add Rat.sub in
theorem c1_balance_conservation_witness :
    (freshRunB emptySt runOps = true ∧
      runCoupon ∈ (run emptySt runOps).coupons) ∧
    runCoupon.remaining_amount_sol =
      runCoupon.initial_amount_sol
      + sumOfType .deposit (couponEvents (run emptySt runOps).events runCoupon)
      - sumOfType .withdraw (couponEvents (run emptySt runOps).events runCoupon)
      - sumOfType .pay (couponEvents (run emptySt runOps).events runCoupon) :=
  ⟨⟨by decide, by decide⟩,
    c1_balance_conservation runOps (by decide) runCoupon (by decide)⟩

/-- C2: starting from an empty store, after any sequence of ledger
operations whatsoever, no stored coupon has a negative remaining amount. -/
theorem c2_remaining_never_negative (ops : List Op) (c : Coupon)
    (hc : c ∈ (run emptySt ops).coupons) : 0 ≤ c.remaining_amount_sol :=
  run_nonneg ops emptySt (by intro x hx; simp [emptySt] at hx) c hc

unseal Rat.add Rat.sub in
theorem c2_remaining_never_negative_witness :
    runCoupon ∈ (run emptySt runOps).coupons ∧
    0 ≤ runCoupon.remaining_amount_sol :=
  ⟨by decide, c2_remaining_never_negative runOps runCoupon (by decide)⟩

unseal Rat.add Rat.sub in
/-- C3 counterexample: already after a single Create, the remaining amount
(equal to the initial amount) differs from the initial amount plus the
signed sum of all events, because the create event's amount is counted a
second time by that formula. -/
theorem c3_counterexample :
    freshRunB emptySt c3Ops = true ∧
    c3Coupon ∈ c3St.coupons ∧
    c3Coupon.remaining_amount_sol ≠
      c3Coupon.initial_amount_sol
        + signedTotal (couponEvents c3St.events c3Coupon) :=
  ⟨by decide, by decide, by decide⟩

/-- C3 (amended): under collision-free id generation, every stored
coupon's remaining amount equals the signed sum of all of its events'
amounts alone — create and deposit add, withdraw and pay subtract —
without adding the initial amount again (the create event already carries
the initial amount). -/
theorem c3_signed_sum (ops : List Op)
    (hfresh : freshRunB emptySt ops = true)
    (c : Coupon) (hc : c ∈ (run emptySt ops).coupons) :
    c.remaining_amount_sol =
      signedTotal (couponEvents (run emptySt ops).events c) := by
  obtain ⟨-, -, hcs⟩ := run_inv ops emptySt inv_emptySt hfresh
  obtain ⟨-, hcreate, hbal⟩ := hcs c hc
  unfold balanceEq at hbal
  rw [signedTotal_eq, hcreate]
  exact hbal

unseal Rat.add Rat.sub in
theorem c3_signed_sum_witness :
    (freshRunB emptySt runOps = true ∧
      runCoupon ∈ (run emptySt runOps).coupons) ∧
    runCoupon.remaining_amount_sol =
      signedTotal (couponEvents (run emptySt runOps).events runCoupon) :=
  ⟨⟨by decide, by decide⟩,
    c3_signed_sum runOps (by decide) runCoupon (by decide)⟩

end ZKnon
